import Mathlib

/-!
Verification of the `BudgetAnalyzer` engine (`src/lib/budgetAnalyzer.ts`).

The analyzer answers free-text questions about an in-memory list of budget
records.  Records are JavaScript objects with heterogeneous field values;
JavaScript numbers are modelled as exact rationals extended with the special
values `NaN` and signed `Infinity`.  Each analysis routine is translated
into a Lean function over this model; narrative strings are modelled by a
structured `Insight` value that captures exactly the branch taken and the
metrics interpolated into the text.
-/

namespace Arqam

/-- A JavaScript number: an exact rational, `NaN`, or a signed infinity
(`inf true` is `+Infinity`). -/
inductive JsNum where
  | nan : JsNum
  | inf (pos : Bool) : JsNum
  | val (q : ℚ) : JsNum
deriving DecidableEq, Repr

namespace JsNum

/-- JavaScript `+` on numbers. -/
def add : JsNum → JsNum → JsNum
  | nan, _ => nan
  | inf _, nan => nan
  | val _, nan => nan
  | inf s, inf t => if s = t then inf s else nan
  | inf s, val _ => inf s
  | val _, inf t => inf t
  | val a, val b => val (a + b)

/-- JavaScript unary minus. -/
def neg : JsNum → JsNum
  | nan => nan
  | inf s => inf (!s)
  | val a => val (-a)

/-- JavaScript `-` on numbers. -/
def sub (a b : JsNum) : JsNum := add a (neg b)

/-- JavaScript `*` on numbers. -/
def mul : JsNum → JsNum → JsNum
  | nan, _ => nan
  | inf _, nan => nan
  | val _, nan => nan
  | inf s, inf t => inf (s == t)
  | inf s, val q => if q = 0 then nan else inf (s == decide (0 < q))
  | val q, inf t => if q = 0 then nan else inf (t == decide (0 < q))
  | val a, val b => val (a * b)

/-- JavaScript `/` on numbers (the model has no `-0`, so `x / 0` for
nonzero `x` carries the sign of `x`). -/
def div : JsNum → JsNum → JsNum
  | nan, _ => nan
  | inf _, nan => nan
  | val _, nan => nan
  | inf _, inf _ => nan
  | inf s, val q => if q = 0 then inf s else inf (s == decide (0 < q))
  | val _, inf _ => val 0
  | val a, val b =>
    if b = 0 then (if a = 0 then nan else inf (decide (0 < a))) else val (a / b)

/-- JavaScript `Math.abs`. -/
def abs : JsNum → JsNum
  | nan => nan
  | inf _ => inf true
  | val a => val |a|

/-- JavaScript `<` on numbers: any comparison involving `NaN` is false. -/
def ltB : JsNum → JsNum → Bool
  | nan, _ => false
  | inf _, nan => false
  | val _, nan => false
  | inf s, inf t => !s && t
  | inf s, val _ => !s
  | val _, inf t => t
  | val a, val b => decide (a < b)

/-- `a > b` in JavaScript. -/
def gtB (a b : JsNum) : Bool := ltB b a

/-- `n > 0`, the guard used before every variance division. -/
def pos (a : JsNum) : Bool := ltB (val 0) a

/-- `a` is a finite (ordinary) number. -/
def isVal : JsNum → Prop
  | val _ => True
  | _ => False

/-- Rational part of a finite number (0 on `NaN`/`Infinity`); used only to
state theorems about values proved finite. -/
def realPart : JsNum → ℚ
  | val q => q
  | _ => 0

end JsNum

/-- A field value of a record: a number or a string. -/
inductive Value where
  | num (q : ℚ) : Value
  | str (s : String) : Value
deriving DecidableEq, Repr

/-- JavaScript truthiness of a field value (`0` and `""` are falsy). -/
def Value.truthy : Value → Bool
  | .num q => decide (q ≠ 0)
  | .str s => decide (s ≠ "")

/-- `x || d` for a possibly-absent field value `x`: the value if present and
truthy, otherwise the default. -/
def jsOr (v : Option Value) (d : Value) : Value :=
  match v with
  | some w => if w.truthy then w else d
  | none => d

/-- Whitespace skipped by `parseFloat`. -/
def isJsSpace (c : Char) : Bool :=
  c == ' ' || c == '\t' || c == '\n' || c == '\r' ||
  c.val == 11 || c.val == 12 || c.val == 160 || c.val == 65279

/-- Numeric value of a digit string. -/
def digitsVal (ds : List Char) : ℕ :=
  ds.foldl (fun n c => 10 * n + (c.toNat - 48)) 0

/-- JavaScript `parseFloat` on a character list: skip leading whitespace,
optional sign, then the longest decimal-literal (or `Infinity`) prefix;
`NaN` if no digits are found.  Trailing garbage is ignored. -/
def jsParseFloatChars (cs0 : List Char) : JsNum :=
  let cs1 := cs0.dropWhile isJsSpace
  let sgn :=
    match cs1 with
    | '-' :: t => (true, t)
    | '+' :: t => (false, t)
    | _ => (false, cs1)
  let sgnNeg := sgn.1
  let cs2 := sgn.2
  if ("Infinity".toList).isPrefixOf cs2 then .inf (!sgnNeg)
  else
    let ints := cs2.takeWhile Char.isDigit
    let cs3 := cs2.dropWhile Char.isDigit
    let fr :=
      match cs3 with
      | '.' :: t => (t.takeWhile Char.isDigit, t.dropWhile Char.isDigit)
      | _ => ([], cs3)
    let fracs := fr.1
    let cs4 := fr.2
    if ints.isEmpty && fracs.isEmpty then .nan
    else
      let mant : ℚ := (digitsVal ints : ℚ) + (digitsVal fracs : ℚ) / ((10 : ℚ) ^ fracs.length)
      let expo : ℤ :=
        match cs4 with
        | c :: t =>
          if c == 'e' || c == 'E' then
            let esgn :=
              match t with
              | '-' :: u => (true, u)
              | '+' :: u => (false, u)
              | _ => (false, t)
            let eds := esgn.2.takeWhile Char.isDigit
            if eds.isEmpty then 0
            else if esgn.1 then -(digitsVal eds : ℤ) else (digitsVal eds : ℤ)
          else 0
        | [] => 0
      .val ((if sgnNeg then -mant else mant) * (10 : ℚ) ^ expo)

/-- `parseFloat` on a field value.  A number is converted to its string and
re-parsed, which round-trips to the same value. -/
def parseFloatV : Value → JsNum
  | .num q => .val q
  | .str s => jsParseFloatChars s.toList

/-- Least `k` with `d ∣ 10 ^ k` (searched up to `d`; any denominator of a
JavaScript double is 2-5-smooth, so the bound suffices there). -/
def tenExp (d : ℕ) : ℕ :=
  (((List.range (d + 1)).find? (fun k => 10 ^ k % d == 0)).getD 0)

/-- Decimal string of a rational whose denominator divides a power of 10,
as JavaScript `ToString` renders it (the fallback branch is unreachable
for numbers arising from doubles). -/
def ratKey (q : ℚ) : String :=
  if q.den = 1 then toString q.num
  else
    let k := tenExp q.den
    if 10 ^ k % q.den = 0 then
      let m := q.num.natAbs * 10 ^ k / q.den
      let ds := (Nat.repr m).toList
      let ds := List.replicate (k + 1 - ds.length) '0' ++ ds
      let ip := ds.take (ds.length - k)
      let fp := (ds.drop (ds.length - k)).reverse.dropWhile (· == '0') |>.reverse
      (if q.num < 0 then "-" else "") ++ ip.asString ++
        (if fp.isEmpty then "" else "." ++ fp.asString)
    else "#" ++ toString q.num ++ "/" ++ toString q.den

/-- The string a value turns into when used as a JavaScript object key. -/
def jsKey : Value → String
  | .str s => s
  | .num q => ratKey q

/-- A budget record: a JavaScript object, i.e. an insertion-ordered mapping
from field names to values. -/
abbrev Rec := List (String × Value)

/-- Field access `item.k`. -/
def getF (r : Rec) (k : String) : Option Value := r.lookup k

/-- `item.K || item.k || 0`, the alternation used for every numeric field. -/
def rawField2 (r : Rec) (k1 k2 : String) : Value :=
  jsOr (getF r k1) (jsOr (getF r k2) (.num 0))

/-- `parseFloat(item.Budget || item.budget || 0)`. -/
def getBudget (r : Rec) : JsNum := parseFloatV (rawField2 r "Budget" "budget")

/-- `parseFloat(item.Actual || item.actual || 0)`. -/
def getActual (r : Rec) : JsNum := parseFloatV (rawField2 r "Actual" "actual")

/-- `acc[k] = f(acc[k] ?? init)` on an insertion-ordered object: update in
place if the key exists, else append it. -/
def bump (l : List (String × α)) (k : String) (f : α → α) (init : α) :
    List (String × α) :=
  match l with
  | [] => [(k, f init)]
  | (k0, v) :: t => if k0 = k then (k0, f v) :: t else (k0, v) :: bump t k f init

/-- Canonical array-index keys (`"0"`, `"12"`, ... below `2^32 - 1`), which
JavaScript objects enumerate first, in ascending numeric order. -/
def isArrayIndexKey (s : String) : Bool :=
  let cs := s.toList
  (!cs.isEmpty) && cs.all Char.isDigit &&
    (cs.length == 1 || cs.headD ' ' != '0') && decide (digitsVal cs < 4294967295)

/-- `Object.entries` enumeration order: array-index keys in ascending
numeric order first, then the remaining keys in insertion order. -/
def jsEntries (l : List (String × α)) : List (String × α) :=
  (l.filter (fun p => isArrayIndexKey p.1)).mergeSort
      (fun a b => decide (digitsVal a.1.toList ≤ digitsVal b.1.toList)) ++
    l.filter (fun p => !isArrayIndexKey p.1)

/-- `((actual - budget) / budget) * 100` guarded by `budget > 0`, the
variance formula repeated at every guarded site of the source. -/
def variancePct (b a : JsNum) : JsNum :=
  if b.pos then ((a.sub b).div b).mul (.val 100) else .val 0

/-- Per-year status marker in the trend narrative:
`|v| < 5` ✅, `|v| < 15` ⚠️, else ❌. -/
inductive Band where
  | ok : Band
  | warn : Band
  | bad : Band
deriving DecidableEq, Repr

def bandOf (v : JsNum) : Band :=
  if v.abs.ltB (.val 5) then .ok else if v.abs.ltB (.val 15) then .warn else .bad

/-- Risk callout of the missed-budget narrative. -/
inductive Risk where
  | high : Risk
  | moderate : Risk
deriving DecidableEq, Repr

/-- Label branch of the totals narrative. -/
inductive TotalsLabel where
  | excellentControl : TotalsLabel
  | overBudget : TotalsLabel
  | underBudget : TotalsLabel
deriving DecidableEq, Repr

/-- Label branch of the averages narrative. -/
inductive AvgLabel where
  | goodConsistency : AvgLabel
  | reviewNeeded : AvgLabel
deriving DecidableEq, Repr

/-- Score band of the performance analysis. -/
inductive Score where
  | excellent : Score
  | good : Score
  | fair : Score
  | poor : Score
deriving DecidableEq, Repr

def scoreOf (v : JsNum) : Score :=
  if v.ltB (.val 5) then .excellent
  else if v.ltB (.val 15) then .good
  else if v.ltB (.val 25) then .fair else .poor

def scoreName : Score → String
  | .excellent => "Excellent"
  | .good => "Good"
  | .fair => "Fair"
  | .poor => "Poor"

/-- One point of the trend series (`{ year, variance, budget, actual }`). -/
structure TrendPoint where
  year : String
  variance : JsNum
  budget : JsNum
  actual : JsNum
deriving DecidableEq, Repr

def TrendPoint.dflt : TrendPoint :=
  { year := "", variance := .nan, budget := .nan, actual := .nan }

/-- A record enriched by the discrepancy analysis
(`{ ...item, variance, discrepancy }`). -/
structure DiscRec where
  item : Rec
  variance : JsNum
  discrepancy : JsNum
deriving DecidableEq, Repr

/-- A record enriched by the performance analysis
(`{ ...item, variance, score }`). -/
structure PerfRec where
  item : Rec
  variance : JsNum
  score : Score
deriving DecidableEq, Repr

/-- One aggregated general-ledger bucket (`{ count, totalBudget, totalActual }`). -/
structure GLAgg where
  count : ℕ
  totalBudget : JsNum
  totalActual : JsNum
deriving DecidableEq, Repr

/-- A ledger bucket together with its key and variance, as listed in the
narrative. -/
structure GLEntry where
  gl : String
  count : ℕ
  totalBudget : JsNum
  totalActual : JsNum
  variance : JsNum
deriving DecidableEq, Repr

/-- Structured content of the narrative string: the branch taken and every
metric interpolated into the text. -/
inductive Insight where
  | trendInsufficient : Insight
  | trend (firstYear lastYear : String) (improving : Bool)
      (lines : List (String × JsNum × Band)) : Insight
  | missedZero : Insight
  | missedSome (count total : ℕ) (pct : JsNum) (risk : Option Risk)
      (byYear : List (String × ℕ)) : Insight
  | discrepNone : Insight
  | discrepSome (count : ℕ) (totalDisc avgVar : JsNum)
      (top : List (String × JsNum)) : Insight
  | totals (totalBudget totalActual variance : JsNum) (label : TotalsLabel) : Insight
  | averages (avgBudget avgActual avgVariance : JsNum) (label : AvgLabel) : Insight
  | performance (dist : List (String × ℕ)) (best worst : List (String × JsNum)) : Insight
  | glNone : Insight
  | generalHelp : Insight
  | generalSnapshot (count : ℕ) (fields : List String) : Insight
deriving DecidableEq, Repr

/-- The optional `data` payload forwarded to the chart layer. -/
inductive Payload where
  | trendSeries (l : List TrendPoint) : Payload
  | recs (l : List Rec) : Payload
  | discreps (l : List DiscRec) : Payload
  | totals (totalBudget totalActual variance : JsNum) : Payload
  | averages (avgBudget avgActual avgVariance : JsNum) : Payload
  | perf (l : List PerfRec) : Payload
deriving DecidableEq, Repr

inductive ChartType where
  | line : ChartType
  | bar : ChartType
  | table : ChartType
deriving DecidableEq, Repr

/-- The `BudgetAnalysisResult` interface. -/
structure AnalysisResult where
  insight : Insight
  data : Option Payload := none
  chartType : Option ChartType := none
deriving DecidableEq, Repr

/-- The key a record is grouped under:
`item.Year || item.year || new Date().getFullYear()`, converted to an
object key.  The current calendar year is the parameter `now`. -/
def yearKey (now : ℚ) (r : Rec) : String :=
  jsKey (jsOr (getF r "Year") (jsOr (getF r "year") (.num now)))

/-- `groupByYear`: per-year budget and actual sums, keyed by year. -/
def groupByYear (now : ℚ) (data : List Rec) : List (String × (JsNum × JsNum)) :=
  data.foldl (fun acc r =>
    bump acc (yearKey now r)
      (fun ya => (ya.1.add (getBudget r), ya.2.add (getActual r)))
      (.val 0, .val 0)) []

/-- `Object.keys(yearlyData).sort()`: the year keys in JavaScript default
(lexicographic) sort order. -/
def sortedYears (g : List (String × (JsNum × JsNum))) : List String :=
  (g.map Prod.fst).mergeSort (fun a b => decide (a ≤ b))

/-- The per-year series `trendAnalysis` of `analyzeTrends`. -/
def trendSeries (now : ℚ) (data : List Rec) : List TrendPoint :=
  let g := groupByYear now data
  (sortedYears g).map (fun y =>
    let ya := (g.lookup y).getD (.val 0, .val 0)
    { year := y, variance := variancePct ya.1 ya.2, budget := ya.1, actual := ya.2 })

/-- `trendAnalysis.filter((_, i) => i > 0 && |v[i]| < |v[i-1]|).length`. -/
def improvingCount (ts : List TrendPoint) : ℕ :=
  (ts.enum.filter (fun p =>
    decide (0 < p.1) &&
      JsNum.ltB p.2.variance.abs ((ts.getD (p.1 - 1) TrendPoint.dflt).variance.abs))).length

/-- `analyzeTrends`. -/
def analyzeTrends (now : ℚ) (data : List Rec) : AnalysisResult :=
  let g := groupByYear now data
  let ys := sortedYears g
  if ys.length < 2 then
    { insight := .trendInsufficient }
  else
    let ts := trendSeries now data
    let improving := improvingCount ts
    let totalYears := ys.length - 1
    let isImp := decide ((totalYears : ℚ) / 2 < (improving : ℚ))
    { insight := .trend (ys.headD "") (ys.getLastD "") isImp
        (ts.map fun t => (t.year, t.variance, bandOf t.variance)),
      data := some (.trendSeries ts),
      chartType := some .line }

/-- The missed-budget filter: `actual > budget * 1.05`. -/
def isMissed (r : Rec) : Bool :=
  JsNum.gtB (getActual r) ((getBudget r).mul (.val 1.05))

/-- `groupMissesByYear`. -/
def groupMissesByYear (now : ℚ) (missed : List Rec) : List (String × ℕ) :=
  missed.foldl (fun acc r => bump acc (yearKey now r) (· + 1) 0) []

/-- `analyzeMissedBudgets`. -/
def analyzeMissedBudgets (now : ℚ) (data : List Rec) : AnalysisResult :=
  let missed := data.filter isMissed
  let missedCount := missed.length
  let pct := (JsNum.div (.val missedCount) (.val data.length)).mul (.val 100)
  let insight :=
    if missedCount = 0 then Insight.missedZero
    else
      Insight.missedSome missedCount data.length pct
        (if JsNum.ltB (.val 30) pct then some .high
         else if JsNum.ltB (.val 15) pct then some .moderate else none)
        (jsEntries (groupMissesByYear now missed))
  { insight := insight, data := some (.recs missed), chartType := some .bar }

/-- The record enrichment of `analyzeDiscrepancies`. -/
def enrichDisc (r : Rec) : DiscRec :=
  let b := getBudget r
  let a := getActual r
  { item := r, variance := variancePct b a, discrepancy := a.sub b }

/-- The kept records: `|variance| > 5`. -/
def discKeep (data : List Rec) : List DiscRec :=
  (data.map enrichDisc).filter (fun d => JsNum.ltB (.val 5) d.variance.abs)

/-- Rank used to model the comparator `|b.variance| - |a.variance|`.
Elements the comparator cannot separate (`NaN` results are treated as ties
by `Array.prototype.sort`) get equal ranks; records with `NaN` variance
never reach a sort, since `|NaN| > 5` fails the preceding filter. -/
def absRank (v : JsNum) : WithTop ℚ :=
  match v.abs with
  | .val q => (q : WithTop ℚ)
  | _ => ⊤

/-- "May come before": the stable descending-by-`|variance|` order of the
sort in `analyzeDiscrepancies`. -/
def discLe (a b : DiscRec) : Bool := decide (absRank b.variance ≤ absRank a.variance)

/-- `item.Category || item.category || item.Description || item.description
|| 'Unknown'`, converted to the string interpolated into the narrative. -/
def categoryOf (r : Rec) : String :=
  jsKey (jsOr (getF r "Category") (jsOr (getF r "category")
    (jsOr (getF r "Description") (jsOr (getF r "description") (.str "Unknown")))))

/-- `analyzeDiscrepancies`.  The source sorts the `discrepancies` array in
place before slicing the top 5, so the returned payload is the sorted list. -/
def analyzeDiscrepancies (data : List Rec) : AnalysisResult :=
  let ds := discKeep data
  let totalDisc := ds.foldl (fun s d => s.add d.discrepancy.abs) (JsNum.val 0)
  let avgVar :=
    if 0 < ds.length then
      (ds.foldl (fun s d => s.add d.variance.abs) (JsNum.val 0)).div (.val ds.length)
    else JsNum.val 0
  if ds.length = 0 then
    { insight := .discrepNone, data := some (.discreps ds), chartType := some .table }
  else
    let sorted := ds.mergeSort discLe
    { insight := .discrepSome ds.length totalDisc avgVar
        ((sorted.take 5).map fun d => (categoryOf d.item, d.variance)),
      data := some (.discreps sorted),
      chartType := some .table }

/-- `analyzeTotals`. -/
def analyzeTotals (data : List Rec) : AnalysisResult :=
  let t := data.foldl
    (fun acc r => (acc.1.add (getBudget r), acc.2.add (getActual r)))
    (JsNum.val 0, JsNum.val 0)
  let v := variancePct t.1 t.2
  let label :=
    if v.abs.ltB (.val 5) then TotalsLabel.excellentControl
    else if JsNum.ltB (.val 0) v then TotalsLabel.overBudget
    else TotalsLabel.underBudget
  { insight := .totals t.1 t.2 v label, data := some (.totals t.1 t.2 v) }

/-- `analyzeAverages`.  The variance division here is NOT guarded by
`avgBudget > 0` in the source (line 211). -/
def analyzeAverages (data : List Rec) : AnalysisResult :=
  let avgBudget :=
    (data.foldl (fun s r => s.add (getBudget r)) (JsNum.val 0)).div (.val data.length)
  let avgActual :=
    (data.foldl (fun s r => s.add (getActual r)) (JsNum.val 0)).div (.val data.length)
  let avgVariance := ((avgActual.sub avgBudget).div avgBudget).mul (.val 100)
  let label :=
    if avgVariance.abs.ltB (.val 10) then AvgLabel.goodConsistency
    else AvgLabel.reviewNeeded
  { insight := .averages avgBudget avgActual avgVariance label,
    data := some (.averages avgBudget avgActual avgVariance) }

/-- Per-record variance of `analyzePerformance`:
`budget > 0 ? Math.abs((actual - budget) / budget) * 100 : 0`. -/
def perfVariance (r : Rec) : JsNum :=
  let b := getBudget r
  let a := getActual r
  if b.pos then (((a.sub b).div b).abs).mul (.val 100) else .val 0

/-- `analyzePerformance`. -/
def analyzePerformance (data : List Rec) : AnalysisResult :=
  let perf := data.map (fun r =>
    { item := r, variance := perfVariance r, score := scoreOf (perfVariance r) : PerfRec })
  let best := (perf.filter (fun p => p.score == Score.excellent)).take 3
  let worst := (perf.filter (fun p => p.score == Score.poor)).take 3
  let dist := jsEntries (perf.foldl (fun acc p => bump acc (scoreName p.score) (· + 1) 0) [])
  { insight := .performance dist
      (best.map fun p => (categoryOf p.item, p.variance))
      (worst.map fun p => (categoryOf p.item, p.variance)),
    data := some (.perf perf),
    chartType := some .bar }

/-- Substring test on lowered field names. -/
def strContains (hay needle : String) : Bool :=
  go hay.toList needle.toList
where
  go : List Char → List Char → Bool
    | hs, ns =>
      match hs with
      | [] => ns.isEmpty
      | _ :: t => ns.isPrefixOf hs || go t ns

/-- GL field detection: field names of the first record containing "gl",
"account" or "code" (case-insensitive). -/
def glFieldsOf (data : List Rec) : List String :=
  ((jsEntries (data.headD [])).map Prod.fst).filter (fun k =>
    strContains k.toLower "gl" || strContains k.toLower "account" ||
      strContains k.toLower "code")

/-- The `glSummary` object: per-key count and budget/actual sums over every
detected field with a truthy value. -/
def glSummaryOf (data : List Rec) : List (String × GLAgg) :=
  data.foldl (fun acc r =>
    (glFieldsOf data).foldl (fun acc2 f =>
      match getF r f with
      | some v =>
        if v.truthy then
          bump acc2 (jsKey v)
            (fun g => { count := g.count + 1,
                        totalBudget := g.totalBudget.add (getBudget r),
                        totalActual := g.totalActual.add (getActual r) })
            { count := 0, totalBudget := .val 0, totalActual := .val 0 }
        else acc2
      | none => acc2) acc) []

/-- Descending-by-`|variance|` order of the GL entry sort. -/
def glLe (a b : GLEntry) : Bool := decide (absRank b.variance ≤ absRank a.variance)

/-- The `glEntries` list: summary buckets with variance, ranked by
descending absolute variance. -/
def glEntriesOf (data : List Rec) : List GLEntry :=
  ((jsEntries (glSummaryOf data)).map (fun p =>
    { gl := p.1, count := p.2.count, totalBudget := p.2.totalBudget,
      totalActual := p.2.totalActual,
      variance := variancePct p.2.totalBudget p.2.totalActual })).mergeSort glLe

/-- `analyzeGLEntries`.  When GL fields exist, the source's return
expression evaluates `Object.values(glSummary)` outside the `else` block in
which `glSummary` is declared (`const` is block-scoped), so the call raises
a `ReferenceError` (and is a TypeScript compile error); that failure is
`none`.  The no-GL-fields branch returns normally. -/
def analyzeGLEntries (data : List Rec) : Option AnalysisResult :=
  if (glFieldsOf data).isEmpty then
    some { insight := .glNone, data := none, chartType := some .table }
  else none

/-- `provideGeneralInsight`: one of two fixed templates, drawn by
`Math.random()`; the draw is the explicit parameter `rand`
(`false` = help text, `true` = data snapshot). -/
def provideGeneralInsight (rand : Bool) (data : List Rec) : AnalysisResult :=
  if rand then
    { insight := .generalSnapshot data.length ((jsEntries (data.headD [])).map Prod.fst) }
  else
    { insight := .generalHelp }

/-- The eight analysis categories of the classifier. -/
inductive Category where
  | trend : Category
  | missed : Category
  | discrepancy : Category
  | totals : Category
  | averages : Category
  | performance : Category
  | ledger : Category
  | general : Category
deriving DecidableEq, Repr

/-- The keyword dispatch chain at the top of `analyzeQuery`. -/
def classify (q : String) : Category :=
  let l := q.toLower
  if strContains l "trend" || strContains l "yearly" then .trend
  else if strContains l "missed" || strContains l "miss" ||
      strContains l "over budget" then .missed
  else if strContains l "discrepan" || strContains l "variance" ||
      strContains l "difference" then .discrepancy
  else if strContains l "total" || strContains l "sum" then .totals
  else if strContains l "average" || strContains l "mean" then .averages
  else if strContains l "best" || strContains l "worst" ||
      strContains l "performance" then .performance
  else if strContains l "gl" || strContains l "general ledger" then .ledger
  else .general

/-- `analyzeQuery`: dispatch to the selected analysis.  `none` models the
uncaught `ReferenceError` of the GL branch. -/
def analyzeQuery (rand : Bool) (now : ℚ) (q : String) (data : List Rec) :
    Option AnalysisResult :=
  match classify q with
  | .trend => some (analyzeTrends now data)
  | .missed => some (analyzeMissedBudgets now data)
  | .discrepancy => some (analyzeDiscrepancies data)
  | .totals => some (analyzeTotals data)
  | .averages => some (analyzeAverages data)
  | .performance => some (analyzePerformance data)
  | .ledger => analyzeGLEntries data
  | .general => some (provideGeneralInsight rand data)

/-! ## Specification-side definitions

Reformulations following the spec's and claims' wording, to be compared
with the definitions translated from the source above. -/

/-- Spec wording: a record is "missed" exactly when its parsed actual is
strictly greater than parsed budget × 1.05. -/
def specIsMissed (r : Rec) : Bool :=
  JsNum.ltB ((getBudget r).mul (.val 1.05)) (getActual r)

/-- Spec wording: the number of consecutive pairs of the (ascending) series
whose later absolute variance is strictly below the earlier one. -/
def pairImprovements (ts : List TrendPoint) : ℕ :=
  ((ts.zip ts.tail).filter
    (fun p => JsNum.ltB p.2.variance.abs p.1.variance.abs)).length

/-- The classifier's keyword sets in their fixed priority order. -/
def keywordTable : List (Category × List String) :=
  [(.trend, ["trend", "yearly"]),
   (.missed, ["missed", "miss", "over budget"]),
   (.discrepancy, ["discrepan", "variance", "difference"]),
   (.totals, ["total", "sum"]),
   (.averages, ["average", "mean"]),
   (.performance, ["best", "worst", "performance"]),
   (.ledger, ["gl", "general ledger"])]

/-- Spec wording: the first category, in priority order, one of whose
keywords occurs in the lower-cased question; the fallback if none. -/
def specClassify (q : String) : Category :=
  match keywordTable.find?
      (fun p => p.2.any (fun kw => strContains q.toLower kw)) with
  | some p => p.1
  | none => .general

/-! ## Concrete inputs used by the claims -/

/-- The spec §8 scenario `[{Year:2021,Budget:100,Actual:120},
{Year:2022,Budget:100,Actual:90}]`. -/
def c1data : List Rec :=
  [[("Year", .num 2021), ("Budget", .num 100), ("Actual", .num 120)],
   [("Year", .num 2022), ("Budget", .num 100), ("Actual", .num 90)]]

/-- A record whose Budget is a truthy string that does not parse. -/
def c2bad : List Rec := [[("Budget", .str "abc"), ("Actual", .num 10)]]

/-- A record set whose average parsed budget is 0. -/
def c3zero : List Rec := [[("Budget", .num 0), ("Actual", .num 10)]]

/-- Averages witness data: mean budget 4, mean actual 5. -/
def c3pos : List Rec := [[("Budget", .num 4), ("Actual", .num 5)]]

/-- Missed-budget witness data: one overrun of 20 %, one exact hit. -/
def c5data : List Rec :=
  [[("Budget", .num 100), ("Actual", .num 120)],
   [("Budget", .num 100), ("Actual", .num 100)]]

/-- Discrepancy witness data: variances 20 %, 11 %, −11 % (a tie in
absolute value) and 2 % (filtered out). -/
def c6data : List Rec :=
  [[("Category", .str "A"), ("Budget", .num 100), ("Actual", .num 120)],
   [("Category", .str "B"), ("Budget", .num 100), ("Actual", .num 111)],
   [("Category", .str "C"), ("Budget", .num 100), ("Actual", .num 89)],
   [("Category", .str "D"), ("Budget", .num 100), ("Actual", .num 102)]]

/-- Single-year trend data. -/
def c7single : List Rec := [[("Year", .num 2021), ("Budget", .num 100), ("Actual", .num 110)]]

/-- The spec §8 ledger scenario: `GL_Account` values `"4000"` and `"4100"`. -/
def c8data : List Rec :=
  [[("GL_Account", .str "4000"), ("Budget", .num 100), ("Actual", .num 110)],
   [("GL_Account", .str "4100"), ("Budget", .num 200), ("Actual", .num 190)]]

/-! ## Arithmetic helper lemmas for `JsNum` -/

theorem val_add_val (a b : ℚ) : (JsNum.val a).add (JsNum.val b) = JsNum.val (a + b) := rfl

theorem val_sub_val (a b : ℚ) : (JsNum.val a).sub (JsNum.val b) = JsNum.val (a - b) := by
  simp [JsNum.sub, JsNum.neg, JsNum.add, sub_eq_add_neg]

theorem val_mul_val (a b : ℚ) : (JsNum.val a).mul (JsNum.val b) = JsNum.val (a * b) := rfl

theorem val_div_val (a b : ℚ) (h : b ≠ 0) :
    (JsNum.val a).div (JsNum.val b) = JsNum.val (a / b) := by
  simp [JsNum.div, h]

theorem val_div_zero (a : ℚ) :
    (JsNum.val a).div (JsNum.val 0) =
      if a = 0 then JsNum.nan else JsNum.inf (decide (0 < a)) := by
  simp [JsNum.div]

theorem nan_mul (b : JsNum) : JsNum.nan.mul b = JsNum.nan := rfl

theorem inf_mul_hundred (s : Bool) :
    (JsNum.inf s).mul (JsNum.val 100) = JsNum.inf s := by
  simp [JsNum.mul]

theorem abs_val (a : ℚ) : (JsNum.val a).abs = JsNum.val |a| := rfl

/-- `parseFloat(num || 0)` is the number itself, whether or not it is
truthy. -/
theorem parse_or_zero (v : ℚ) :
    parseFloatV (jsOr (some (Value.num v)) (Value.num 0)) = JsNum.val v := by
  by_cases h : v = 0 <;> simp [jsOr, Value.truthy, h, parseFloatV]

/-- A fold of `JsNum.add` over finite values is the finite sum. -/
theorem foldl_add_val {α : Type} (f : α → JsNum) (g : α → ℚ) :
    ∀ (l : List α) (c : ℚ), (∀ x ∈ l, f x = JsNum.val (g x)) →
      l.foldl (fun s x => s.add (f x)) (JsNum.val c) = JsNum.val (c + (l.map g).sum)
  | [], c, _ => by simp
  | x :: t, c, h => by
    have hx := h x (List.mem_cons_self _ _)
    have ht := foldl_add_val f g t (c + g x) (fun y hy => h y (List.mem_cons_of_mem _ hy))
    simp only [List.foldl_cons, hx, val_add_val, ht, List.map_cons, List.sum_cons]
    ring_nf

/-- The budget/actual pair fold of `analyzeTotals` over finite values
yields finite totals. -/
theorem totalsFold_val (data : List Rec) :
    ∀ (cb ca : ℚ),
      (∀ r ∈ data, (∃ q, getBudget r = JsNum.val q) ∧ (∃ q, getActual r = JsNum.val q)) →
      ∃ qb qa,
        data.foldl (fun acc r => (acc.1.add (getBudget r), acc.2.add (getActual r)))
          (JsNum.val cb, JsNum.val ca) = (JsNum.val qb, JsNum.val qa) := by
  induction data with
  | nil => exact fun cb ca _ => ⟨cb, ca, rfl⟩
  | cons r t ih =>
    intro cb ca h
    obtain ⟨⟨qb, hb⟩, ⟨qa, ha⟩⟩ := h r (List.mem_cons_self _ _)
    obtain ⟨sb, sa, hs⟩ := ih (cb + qb) (ca + qa) (fun y hy => h y (List.mem_cons_of_mem _ hy))
    exact ⟨sb, sa, by simpa [hb, ha, val_add_val] using hs⟩

/-! ## Claim C1 -/

/-- C1 is false on the code: on the two-record scenario the totals are
budget 200, actual 210 and variance exactly +5.0 %, but the label test is
`|variance| < 5`, so the narrative carries "over budget", not
"excellent control". -/
theorem claim1_counterexample :
    (analyzeTotals c1data).insight ≠
      Insight.totals (JsNum.val 200) (JsNum.val 210) (JsNum.val 5)
        TotalsLabel.excellentControl
    ∧ (analyzeTotals c1data).insight =
      Insight.totals (JsNum.val 200) (JsNum.val 210) (JsNum.val 5)
        TotalsLabel.overBudget := by
  constructor
  · with_unfolding_all decide
  · with_unfolding_all decide

/-- C1 (amended): on the two-record scenario the totals analysis reports
total budget 200, total actual 210, overall variance +5.0 %, and — since
`|5| < 5` fails and `5 > 0` holds — the "over budget" label. -/
theorem claim1_main :
    analyzeTotals c1data =
      { insight := Insight.totals (JsNum.val 200) (JsNum.val 210) (JsNum.val 5)
          TotalsLabel.overBudget,
        data := some (.totals (JsNum.val 200) (JsNum.val 210) (JsNum.val 5)),
        chartType := none } := by
  with_unfolding_all decide

/-! ## Claim C2 -/

/-- C2 is false on the code: a Budget field holding the truthy, unparsable
string `"abc"` is read as `NaN` (not 0), and the totals analysis then
reports a `NaN` total budget — not a finite numeric sum. -/
theorem claim2_counterexample :
    getBudget [("Budget", Value.str "abc"), ("Actual", Value.num 10)] = JsNum.nan
    ∧ (analyzeTotals c2bad).insight =
        Insight.totals JsNum.nan (JsNum.val 10) (JsNum.val 0) TotalsLabel.excellentControl
    ∧ JsNum.nan ≠ JsNum.val 0 := by
  refine ⟨by with_unfolding_all decide, by with_unfolding_all decide, by decide⟩

/-- C2 (amended): an absent (or falsy) Budget/Actual field is read as 0,
and totals over records whose parsed fields are all finite are finite;
but a truthy string that does not parse is read as `NaN`, which propagates
into the sums. -/
theorem claim2_main :
    (∀ r : Rec, getF r "Budget" = none → getF r "budget" = none →
      getBudget r = JsNum.val 0)
    ∧ (∀ r : Rec, getF r "Actual" = none → getF r "actual" = none →
      getActual r = JsNum.val 0)
    ∧ (∀ data : List Rec,
        (∀ r ∈ data, (∃ q, getBudget r = JsNum.val q) ∧ (∃ q, getActual r = JsNum.val q)) →
        ∃ qb qa v label, analyzeTotals data =
          { insight := Insight.totals (JsNum.val qb) (JsNum.val qa) v label,
            data := some (.totals (JsNum.val qb) (JsNum.val qa) v),
            chartType := none }) := by
  refine ⟨?_, ?_, ?_⟩
  · intro r h1 h2
    unfold getBudget rawField2
    rw [h1, h2]
    rfl
  · intro r h1 h2
    unfold getActual rawField2
    rw [h1, h2]
    rfl
  · intro data h
    obtain ⟨qb, qa, hfold⟩ := totalsFold_val data 0 0 h
    refine ⟨qb, qa, variancePct (JsNum.val qb) (JsNum.val qa),
      (if (variancePct (JsNum.val qb) (JsNum.val qa)).abs.ltB (JsNum.val 5) then
        TotalsLabel.excellentControl
      else if JsNum.ltB (JsNum.val 0) (variancePct (JsNum.val qb) (JsNum.val qa)) then
        TotalsLabel.overBudget
      else TotalsLabel.underBudget), ?_⟩
    simp only [analyzeTotals]
    rw [hfold]

theorem claim2_witness :
    getBudget [("Year", Value.num 2021)] = JsNum.val 0
    ∧ ∃ qb qa v label,
        analyzeTotals [[("Budget", Value.num 100), ("Actual", Value.num 120)]] =
          { insight := Insight.totals (JsNum.val qb) (JsNum.val qa) v label,
            data := some (.totals (JsNum.val qb) (JsNum.val qa) v),
            chartType := none } := by
  refine ⟨claim2_main.1 [("Year", Value.num 2021)] (by with_unfolding_all rfl)
    (by with_unfolding_all rfl), ?_⟩
  refine claim2_main.2.2 _ ?_
  intro r hr
  simp only [List.mem_singleton] at hr
  subst hr
  exact ⟨⟨100, by with_unfolding_all decide⟩, ⟨120, by with_unfolding_all decide⟩⟩

/-! ## Claim C3 -/

/-- C3 is false on the code: `analyzeAverages` divides by the average
budget without the zero guard used everywhere else, so on a record set
with average budget 0 and average actual 10 the reported average variance
is `+Infinity`, not the claimed 0. -/
theorem claim3_counterexample :
    (analyzeAverages c3zero).insight =
      Insight.averages (JsNum.val 0) (JsNum.val 10) (JsNum.inf true) AvgLabel.reviewNeeded
    ∧ JsNum.inf true ≠ JsNum.val 0 := by
  refine ⟨by with_unfolding_all decide, by decide⟩

/-- C3 (amended): the average variance equals
`(avgActual − avgBudget) / avgBudget × 100` when the average parsed budget
is nonzero; when it is 0 the division is unguarded and yields `NaN`
(average actual 0) or a signed `Infinity` (average actual nonzero) —
never a finite number, in particular never 0. -/
theorem claim3_main (data : List Rec) (qb qa : ℚ)
    (hb : (data.foldl (fun s r => s.add (getBudget r)) (JsNum.val 0)).div
        (JsNum.val data.length) = JsNum.val qb)
    (ha : (data.foldl (fun s r => s.add (getActual r)) (JsNum.val 0)).div
        (JsNum.val data.length) = JsNum.val qa) :
    (qb ≠ 0 → ∃ label, (analyzeAverages data).insight =
        Insight.averages (JsNum.val qb) (JsNum.val qa)
          (JsNum.val ((qa - qb) / qb * 100)) label)
    ∧ (qb = 0 → ∃ label, (analyzeAverages data).insight =
        Insight.averages (JsNum.val qb) (JsNum.val qa)
          (if qa = 0 then JsNum.nan else JsNum.inf (decide (0 < qa))) label)
    ∧ (qb = 0 → ∀ x label, (analyzeAverages data).insight ≠
        Insight.averages (JsNum.val qb) (JsNum.val qa) (JsNum.val x) label) := by
  have hins : ∀ v : JsNum, ((JsNum.val qa).sub (JsNum.val qb)).div (JsNum.val qb) = v →
      ∃ label, (analyzeAverages data).insight =
        Insight.averages (JsNum.val qb) (JsNum.val qa) (v.mul (JsNum.val 100)) label := by
    intro v hv
    refine ⟨if ((v.mul (JsNum.val 100)).abs.ltB (JsNum.val 10)) then
      AvgLabel.goodConsistency else AvgLabel.reviewNeeded, ?_⟩
    simp only [analyzeAverages, hb, ha, hv]
  have part2 : qb = 0 → ∃ label, (analyzeAverages data).insight =
      Insight.averages (JsNum.val qb) (JsNum.val qa)
        (if qa = 0 then JsNum.nan else JsNum.inf (decide (0 < qa))) label := by
    intro h0
    subst h0
    rcases eq_or_ne qa 0 with hqa | hqa
    · have h := hins JsNum.nan (by rw [val_sub_val, val_div_zero]; simp [hqa])
      simpa [nan_mul, hqa] using h
    · have h := hins (JsNum.inf (decide (0 < qa)))
        (by rw [val_sub_val, val_div_zero]; simp [sub_zero, hqa])
      simpa [inf_mul_hundred, hqa] using h
  refine ⟨?_, part2, ?_⟩
  · intro h0
    have h := hins (JsNum.val ((qa - qb) / qb)) (by rw [val_sub_val, val_div_val _ _ h0])
    rwa [val_mul_val] at h
  · intro h0 x label heq
    rcases part2 h0 with ⟨lab0, h1⟩
    rw [heq] at h1
    rcases eq_or_ne qa 0 with hqa | hqa <;> simp [hqa] at h1

theorem claim3_witness :
    ∃ label, (analyzeAverages c3pos).insight =
      Insight.averages (JsNum.val 4) (JsNum.val 5) (JsNum.val ((5 - 4) / 4 * 100)) label :=
  (claim3_main c3pos 4 5 (by with_unfolding_all decide)
    (by with_unfolding_all decide)).1 (by norm_num)

/-! ## Claim C10 -/

/-- C10: on the empty record set the missed-budget analysis returns the
no-overruns narrative with an empty data list; the missed percentage
(`0/0`, i.e. `NaN`) is computed but the zero-misses branch never formats
it into the output. -/
theorem claim10_main (now : ℚ) :
    analyzeMissedBudgets now [] =
      { insight := Insight.missedZero, data := some (.recs []),
        chartType := some .bar } := rfl

theorem claim10_witness :
    analyzeMissedBudgets 2026 [] =
      { insight := Insight.missedZero, data := some (.recs []),
        chartType := some .bar } :=
  claim10_main 2026

/-! ## Claim C8 -/

/-- C8: ledger-field detection scans the first record's field names for
"gl" / "account" / "code" and the no-fields branch reports that no ledger
fields exist; on the `GL_Account` scenario the `glEntries` computation
does produce exactly the 2 GL keys with their own count, sums and
variance — but the routine's return expression references `glSummary`
outside its declaring block, so the call raises a `ReferenceError`
(modelled as `none`) instead of returning that report. -/
theorem claim8_main :
    glFieldsOf c8data = ["GL_Account"]
    ∧ glEntriesOf c8data =
      [{ gl := "4000", count := 1, totalBudget := JsNum.val 100,
         totalActual := JsNum.val 110, variance := JsNum.val 10 },
       { gl := "4100", count := 1, totalBudget := JsNum.val 200,
         totalActual := JsNum.val 190, variance := JsNum.val (-5) }]
    ∧ analyzeGLEntries c8data = none
    ∧ glFieldsOf [[("Year", Value.num 2021)]] = []
    ∧ analyzeGLEntries [[("Year", Value.num 2021)]] =
      some { insight := Insight.glNone, data := none, chartType := some .table } := by
  refine ⟨by with_unfolding_all decide, by with_unfolding_all decide,
    by with_unfolding_all decide, by with_unfolding_all decide,
    by with_unfolding_all decide⟩

/-! ## Claim C4 -/

/-- C4: the classifier lower-cases the question and selects the first
category, in the fixed priority order, with a keyword occurring as a
substring; a question containing both "trend" and "total" is always
trend-analysis, and a question matching no keyword resolves to the
general-insight fallback. -/
theorem claim4_main (q : String) :
    classify q = specClassify q
    ∧ (strContains q.toLower "trend" = true → strContains q.toLower "total" = true →
        classify q = Category.trend)
    ∧ (keywordTable.find? (fun p => p.2.any (fun kw => strContains q.toLower kw)) = none →
        classify q = Category.general) := by
  have hmain : classify q = specClassify q := by
    unfold classify specClassify keywordTable
    simp only [List.find?, List.any_cons, List.any_nil, Bool.or_false, Bool.or_assoc]
    by_cases h1 : (strContains q.toLower "trend" || strContains q.toLower "yearly") = true
    · rw [h1]; rfl
    · rw [Bool.not_eq_true] at h1
      rw [h1]
      by_cases h2 : (strContains q.toLower "missed" || (strContains q.toLower "miss" ||
          strContains q.toLower "over budget")) = true
      · rw [h2]; rfl
      · rw [Bool.not_eq_true] at h2
        rw [h2]
        by_cases h3 : (strContains q.toLower "discrepan" || (strContains q.toLower "variance" ||
            strContains q.toLower "difference")) = true
        · rw [h3]; rfl
        · rw [Bool.not_eq_true] at h3
          rw [h3]
          by_cases h4 : (strContains q.toLower "total" || strContains q.toLower "sum") = true
          · rw [h4]; rfl
          · rw [Bool.not_eq_true] at h4
            rw [h4]
            by_cases h5 : (strContains q.toLower "average" ||
                strContains q.toLower "mean") = true
            · rw [h5]; rfl
            · rw [Bool.not_eq_true] at h5
              rw [h5]
              by_cases h6 : (strContains q.toLower "best" || (strContains q.toLower "worst" ||
                  strContains q.toLower "performance")) = true
              · rw [h6]; rfl
              · rw [Bool.not_eq_true] at h6
                rw [h6]
                by_cases h7 : (strContains q.toLower "gl" ||
                    strContains q.toLower "general ledger") = true
                · rw [h7]; rfl
                · rw [Bool.not_eq_true] at h7
                  rw [h7]; rfl
  refine ⟨hmain, ?_, ?_⟩
  · intro h1 h2
    simp [classify, h1]
  · intro h
    rw [hmain]
    unfold specClassify
    rw [h]

theorem claim4_witness : classify "compare trend and total" = Category.trend :=
  (claim4_main "compare trend and total").2.1 (by with_unfolding_all decide)
    (by with_unfolding_all decide)

/-! ## Claim C9 -/

/-- C9: for every question whose category is not the general-insight
fallback, the analysis result is independent of the random draw — two runs
on the unmodified record set yield identical narrative and data. -/
theorem claim9_main (r1 r2 : Bool) (now : ℚ) (q : String) (data : List Rec)
    (h : classify q ≠ Category.general) :
    analyzeQuery r1 now q data = analyzeQuery r2 now q data := by
  unfold analyzeQuery
  cases hc : classify q
  all_goals first | exact absurd hc h | rfl

theorem claim9_witness :
    analyzeQuery true 0 "total" [] = analyzeQuery false 0 "total" [] :=
  claim9_main true false 0 "total" [] (by with_unfolding_all decide)

/-! ## Claim C5 -/

/-- C5: a record is counted as missed exactly when its parsed actual is
strictly greater than parsed budget × 1.05 (equality is not counted, a
0.01 excess is); the reported count and percentage are the number of such
records and that number over the record count × 100. -/
theorem claim5_main (now : ℚ) (data : List Rec) (hne : data ≠ []) :
    (analyzeMissedBudgets now data).data = some (.recs (data.filter specIsMissed))
    ∧ ((data.filter specIsMissed).length = 0 →
        (analyzeMissedBudgets now data).insight = Insight.missedZero)
    ∧ (data.filter specIsMissed ≠ [] → ∃ rk yb,
        (analyzeMissedBudgets now data).insight =
          Insight.missedSome (data.filter specIsMissed).length data.length
            (JsNum.val (((data.filter specIsMissed).length : ℚ) / (data.length : ℚ) * 100))
            rk yb)
    ∧ (∀ b : ℚ,
        specIsMissed [("Budget", Value.num b), ("Actual", Value.num (b * 1.05))] = false
        ∧ specIsMissed [("Budget", Value.num b),
            ("Actual", Value.num (b * 1.05 + 0.01))] = true) := by
  have hfil : data.filter isMissed = data.filter specIsMissed := rfl
  have hlen : (data.length : ℚ) ≠ 0 := by
    simpa [Nat.cast_ne_zero] using fun h => hne (List.length_eq_zero.mp h)
  refine ⟨rfl, ?_, ?_, ?_⟩
  · intro h0
    simp only [analyzeMissedBudgets, hfil]
    rw [if_pos h0]
  · intro hm
    have h0 : ¬(data.filter specIsMissed).length = 0 :=
      fun h => hm (List.length_eq_zero.mp h)
    refine ⟨if JsNum.ltB (JsNum.val 30)
        (JsNum.val (((data.filter specIsMissed).length : ℚ) / (data.length : ℚ) * 100)) then
          some Risk.high
        else if JsNum.ltB (JsNum.val 15)
            (JsNum.val (((data.filter specIsMissed).length : ℚ) / (data.length : ℚ) * 100)) then
          some Risk.moderate
        else none,
      jsEntries (groupMissesByYear now (data.filter specIsMissed)), ?_⟩
    simp only [analyzeMissedBudgets, hfil]
    rw [if_neg h0, val_div_val _ _ hlen, val_mul_val]
  · intro b
    have hB : getBudget [("Budget", Value.num b), ("Actual", Value.num (b * 1.05))] =
        parseFloatV (jsOr (some (Value.num b)) (Value.num 0)) := rfl
    have hA : getActual [("Budget", Value.num b), ("Actual", Value.num (b * 1.05))] =
        parseFloatV (jsOr (some (Value.num (b * 1.05))) (Value.num 0)) := rfl
    have hB2 : getBudget [("Budget", Value.num b), ("Actual", Value.num (b * 1.05 + 0.01))] =
        parseFloatV (jsOr (some (Value.num b)) (Value.num 0)) := rfl
    have hA2 : getActual [("Budget", Value.num b), ("Actual", Value.num (b * 1.05 + 0.01))] =
        parseFloatV (jsOr (some (Value.num (b * 1.05 + 0.01))) (Value.num 0)) := rfl
    constructor
    · unfold specIsMissed
      rw [hB, hA, parse_or_zero, parse_or_zero, val_mul_val]
      simp [JsNum.ltB]
    · unfold specIsMissed
      rw [hB2, hA2, parse_or_zero, parse_or_zero, val_mul_val]
      simp only [JsNum.ltB, decide_eq_true_eq]
      norm_num

theorem claim5_witness :
    ∃ rk yb, (analyzeMissedBudgets 0 c5data).insight =
      Insight.missedSome (c5data.filter specIsMissed).length c5data.length
        (JsNum.val (((c5data.filter specIsMissed).length : ℚ) / (c5data.length : ℚ) * 100))
        rk yb :=
  (claim5_main 0 c5data (by with_unfolding_all decide)).2.2.1
    (by with_unfolding_all decide)

/-! ## Claim C6 -/

theorem discLe_trans : ∀ a b c : DiscRec,
    discLe a b = true → discLe b c = true → discLe a c = true := by
  intro a b c h1 h2
  simp only [discLe, decide_eq_true_eq] at *
  exact le_trans h2 h1

theorem discLe_total : ∀ a b : DiscRec, (discLe a b || discLe b a) = true := by
  intro a b
  simp only [discLe, Bool.or_eq_true, decide_eq_true_eq]
  exact le_total _ _

/-- A strict `|·|` comparison between two numbers forces a strict rank
comparison. -/
theorem ltB_abs_rank {u v : JsNum} (h : JsNum.ltB u.abs v.abs = true) :
    absRank u < absRank v := by
  cases u <;> cases v <;>
    simp_all [JsNum.ltB, JsNum.abs, absRank, WithTop.coe_lt_top, WithTop.coe_lt_coe]

theorem discLe_not_ltB {x y : DiscRec} (h : discLe x y = true) :
    JsNum.ltB x.variance.abs y.variance.abs = false := by
  rcases hb : JsNum.ltB x.variance.abs y.variance.abs
  · rfl
  · exfalso
    have hlt := ltB_abs_rank hb
    simp only [discLe, decide_eq_true_eq] at h
    exact absurd h (not_le.mpr hlt)

/-- The guarded variance formula on finite values with a positive budget. -/
theorem variancePct_pos (b a : ℚ) (hb : 0 < b) :
    variancePct (JsNum.val b) (JsNum.val a) = JsNum.val ((a - b) / b * 100) := by
  have hpos : (JsNum.val b).pos = true := by
    simp [JsNum.pos, JsNum.ltB, hb]
  unfold variancePct
  rw [hpos, if_pos rfl, val_sub_val, val_div_val _ _ (ne_of_gt hb), val_mul_val]

/-- Variance of a single two-field numeric record, for the filter-boundary
instances. -/
theorem enrichDisc_single (b a : ℚ) (hb : 0 < b) :
    enrichDisc [("Budget", Value.num b), ("Actual", Value.num a)] =
      { item := [("Budget", Value.num b), ("Actual", Value.num a)],
        variance := JsNum.val ((a - b) / b * 100),
        discrepancy := JsNum.val (a - b) } := by
  have hB : getBudget [("Budget", Value.num b), ("Actual", Value.num a)] =
      parseFloatV (jsOr (some (Value.num b)) (Value.num 0)) := rfl
  have hA : getActual [("Budget", Value.num b), ("Actual", Value.num a)] =
      parseFloatV (jsOr (some (Value.num a)) (Value.num 0)) := rfl
  simp only [enrichDisc]
  rw [hB, hA, parse_or_zero, parse_or_zero, variancePct_pos b a hb, val_sub_val]

/-- Enriched records built from finite budget/actual fields have finite
variance and discrepancy. -/
theorem discKeep_val (data : List Rec)
    (h : ∀ r ∈ data, (∃ q, getBudget r = JsNum.val q) ∧ (∃ q, getActual r = JsNum.val q)) :
    ∀ d ∈ discKeep data,
      (∃ q, d.variance = JsNum.val q) ∧ (∃ q, d.discrepancy = JsNum.val q) := by
  intro d hd
  have hd2 := (List.mem_filter.mp hd).1
  obtain ⟨r, hr, rfl⟩ := List.mem_map.mp hd2
  obtain ⟨⟨qb, hqb⟩, ⟨qa, hqa⟩⟩ := h r hr
  constructor
  · show ∃ q, variancePct (getBudget r) (getActual r) = JsNum.val q
    rw [hqb, hqa]
    unfold variancePct
    rcases hp : (JsNum.val qb).pos
    · exact ⟨0, by simp⟩
    · have hb0 : 0 < qb := by
        simpa [JsNum.pos, JsNum.ltB] using hp
      rw [if_pos rfl, val_sub_val, val_div_val _ _ (ne_of_gt hb0), val_mul_val]
      exact ⟨_, rfl⟩
  · show ∃ q, (getActual r).sub (getBudget r) = JsNum.val q
    rw [hqb, hqa, val_sub_val]
    exact ⟨_, rfl⟩

/-- C6: the discrepancy analysis keeps exactly the records with
`|variance| > 5` (exact 5 % is excluded, 5.01 % included), reports the sum
of `|actual − budget|` and the mean `|variance|` over the kept records,
and lists the top 5 in stable descending-`|variance|` order (ties keep the
original input order). -/
theorem claim6_main (data : List Rec)
    (hval : ∀ d ∈ discKeep data,
      (∃ q, d.variance = JsNum.val q) ∧ (∃ q, d.discrepancy = JsNum.val q)) :
    (∀ d, d ∈ discKeep data ↔
      d ∈ data.map enrichDisc ∧ JsNum.ltB (JsNum.val 5) d.variance.abs = true)
    ∧ (∀ b : ℚ, 0 < b →
        discKeep [[("Budget", Value.num b), ("Actual", Value.num (b * 1.05))]] = []
        ∧ (discKeep [[("Budget", Value.num b),
            ("Actual", Value.num (b * 1.0501))]]).map (fun d => d.variance)
          = [JsNum.val 5.01])
    ∧ (discKeep data = [] → (analyzeDiscrepancies data).insight = Insight.discrepNone)
    ∧ (discKeep data ≠ [] → (analyzeDiscrepancies data).insight =
        Insight.discrepSome (discKeep data).length
          (JsNum.val (((discKeep data).map (fun d => |d.discrepancy.realPart|)).sum))
          (JsNum.val ((((discKeep data).map (fun d => |d.variance.realPart|)).sum) /
            ((discKeep data).length : ℚ)))
          ((((discKeep data).mergeSort discLe).take 5).map
            (fun d => (categoryOf d.item, d.variance))))
    ∧ ((discKeep data).mergeSort discLe).Perm (discKeep data)
    ∧ ((discKeep data).mergeSort discLe).Pairwise
        (fun x y => JsNum.ltB x.variance.abs y.variance.abs = false)
    ∧ (∀ k : JsNum, ((discKeep data).mergeSort discLe).filter
          (fun d => d.variance.abs == k)
        = (discKeep data).filter (fun d => d.variance.abs == k)) := by
  refine ⟨?_, ?_, ?_, ?_, List.mergeSort_perm _ _, ?_, ?_⟩
  · intro d
    simp [discKeep, List.mem_filter]
  · intro b hb
    have h1 := enrichDisc_single b (b * 1.05) hb
    have h2 := enrichDisc_single b (b * 1.0501) hb
    have e1 : (b * 1.05 - b) / b * 100 = 5 := by
      field_simp
      ring
    have e2 : (b * 1.0501 - b) / b * 100 = 5.01 := by
      field_simp
      norm_num
      ring
    constructor
    · simp only [discKeep, List.map_cons, List.map_nil, h1, e1]
      simp [JsNum.abs, JsNum.ltB, List.filter]
    · simp only [discKeep, List.map_cons, List.map_nil, h2, e2]
      simp only [List.filter, JsNum.abs]
      norm_num [JsNum.ltB]
      have h3 : (5 : ℚ) < |(501 : ℚ) / 100| := by
        rw [abs_of_nonneg (by norm_num)]
        norm_num
      rw [decide_eq_true h3]
      rfl
  · intro h
    simp only [analyzeDiscrepancies, h]
    rfl
  · intro hne
    have hlen0 : ¬(discKeep data).length = 0 :=
      fun h => hne (List.length_eq_zero.mp h)
    have hlenQ : ((discKeep data).length : ℚ) ≠ 0 := Nat.cast_ne_zero.mpr hlen0
    have hfold1 : (discKeep data).foldl (fun s d => s.add d.discrepancy.abs) (JsNum.val 0)
        = JsNum.val (0 + ((discKeep data).map (fun d => |d.discrepancy.realPart|)).sum) := by
      refine foldl_add_val _ _ _ _ ?_
      intro d hd
      obtain ⟨-, ⟨qd, hqd⟩⟩ := hval d hd
      rw [hqd]
      rfl
    have hfold2 : (discKeep data).foldl (fun s d => s.add d.variance.abs) (JsNum.val 0)
        = JsNum.val (0 + ((discKeep data).map (fun d => |d.variance.realPart|)).sum) := by
      refine foldl_add_val _ _ _ _ ?_
      intro d hd
      obtain ⟨⟨qv, hqv⟩, -⟩ := hval d hd
      rw [hqv]
      rfl
    simp only [analyzeDiscrepancies, hfold1, hfold2, zero_add]
    rw [if_neg hlen0, if_pos (Nat.pos_of_ne_zero hlen0), val_div_val _ _ hlenQ]
  · exact (List.sorted_mergeSort discLe_trans discLe_total _).imp discLe_not_ltB
  · intro k
    have hsub : List.Sublist ((discKeep data).filter (fun d => d.variance.abs == k))
        (discKeep data) := List.filter_sublist _
    have hpw : ((discKeep data).filter (fun d => d.variance.abs == k)).Pairwise
        (fun a b => discLe a b = true) := by
      refine List.pairwise_of_forall_mem_list ?_
      intro a ha b hb
      have hak : a.variance.abs = k := by
        simpa using (List.mem_filter.mp ha).2
      have hbk : b.variance.abs = k := by
        simpa using (List.mem_filter.mp hb).2
      have : absRank a.variance = absRank b.variance := by
        unfold absRank
        rw [hak, hbk]
      simp [discLe, this]
    have hstab := List.sublist_mergeSort discLe_trans discLe_total hpw hsub
    have h1 : List.Sublist ((discKeep data).filter (fun d => d.variance.abs == k))
        (((discKeep data).mergeSort discLe).filter (fun d => d.variance.abs == k)) := by
      have := hstab.filter (fun d => d.variance.abs == k)
      simpa [List.filter_filter] using this
    have h2 : (((discKeep data).mergeSort discLe).filter
        (fun d => d.variance.abs == k)).length
        = ((discKeep data).filter (fun d => d.variance.abs == k)).length :=
      ((List.mergeSort_perm _ _).filter _).length_eq
    exact (h1.eq_of_length h2.symm).symm

theorem claim6_witness :
    (analyzeDiscrepancies c6data).insight =
      Insight.discrepSome (discKeep c6data).length
        (JsNum.val (((discKeep c6data).map (fun d => |d.discrepancy.realPart|)).sum))
        (JsNum.val ((((discKeep c6data).map (fun d => |d.variance.realPart|)).sum) /
          ((discKeep c6data).length : ℚ)))
        ((((discKeep c6data).mergeSort discLe).take 5).map
          (fun d => (categoryOf d.item, d.variance))) := by
  refine (claim6_main c6data ?_).2.2.2.1 (by with_unfolding_all decide)
  refine discKeep_val c6data ?_
  intro r hr
  have hr4 : r ∈ c6data := hr
  simp only [c6data, List.mem_cons, List.not_mem_nil, or_false] at hr4
  rcases hr4 with rfl | rfl | rfl | rfl
  · exact ⟨⟨100, by with_unfolding_all decide⟩, ⟨120, by with_unfolding_all decide⟩⟩
  · exact ⟨⟨100, by with_unfolding_all decide⟩, ⟨111, by with_unfolding_all decide⟩⟩
  · exact ⟨⟨100, by with_unfolding_all decide⟩, ⟨89, by with_unfolding_all decide⟩⟩
  · exact ⟨⟨100, by with_unfolding_all decide⟩, ⟨102, by with_unfolding_all decide⟩⟩

/-! ## Claim C7 -/

/-- Counting with a look-back index over an enumerated list equals counting
over the list of consecutive pairs. -/
theorem lookback_aux {α : Type} (F : α → α → Bool) (d : α) :
    ∀ (l : List α) (prev : α),
      (l.enum.filter (fun p => F ((prev :: l).getD p.1 d) p.2)).length
        = (((prev :: l).zip l).filter (fun p => F p.1 p.2)).length := by
  intro l
  induction l with
  | nil => intro prev; rfl
  | cons b t ih =>
    intro prev
    simp only [List.enum_cons', List.zip_cons_cons, List.filter_cons, List.getD_cons_zero]
    rw [List.filter_map]
    have hcong : ∀ p ∈ t.enum,
        ((fun p : ℕ × α => F ((prev :: b :: t).getD p.1 d) p.2) ∘ Prod.map (· + 1) id) p
          = (fun p : ℕ × α => F ((b :: t).getD p.1 d) p.2) p := by
      intro p hp
      cases p
      simp [Prod.map]
    rw [List.filter_congr hcong]
    by_cases hf : F prev b = true
    · rw [if_pos hf, if_pos hf]
      simpa using ih b
    · rw [if_neg hf, if_neg hf]
      simpa using ih b

/-- The source's indexed improving-pair count equals the spec's
consecutive-pair count. -/
theorem improvingCount_eq (ts : List TrendPoint) :
    improvingCount ts = pairImprovements ts := by
  cases ts with
  | nil => rfl
  | cons a l =>
    unfold improvingCount pairImprovements
    simp only [List.enum_cons', List.filter_cons]
    rw [if_neg (by simp)]
    rw [List.filter_map]
    have hcong : ∀ p ∈ l.enum,
        ((fun p : ℕ × TrendPoint => decide (0 < p.1) &&
            JsNum.ltB p.2.variance.abs
              (((a :: l).getD (p.1 - 1) TrendPoint.dflt).variance.abs)) ∘
          Prod.map (· + 1) id) p
          = (fun p : ℕ × TrendPoint =>
              JsNum.ltB p.2.variance.abs
                (((a :: l).getD p.1 TrendPoint.dflt).variance.abs)) p := by
      intro p hp
      cases p
      simp [Prod.map]
    rw [List.filter_congr hcong, List.length_map]
    exact lookback_aux
      (fun prev cur => JsNum.ltB cur.variance.abs prev.variance.abs)
      TrendPoint.dflt l a

/-- Keys of an object after `bump`: unchanged if present, appended if new. -/
theorem bump_keys {α : Type} (l : List (String × α)) (k : String) (f : α → α) (init : α) :
    (bump l k f init).map Prod.fst =
      if k ∈ l.map Prod.fst then l.map Prod.fst else l.map Prod.fst ++ [k] := by
  induction l with
  | nil => simp [bump]
  | cons p t ih =>
    obtain ⟨k0, v⟩ := p
    by_cases h : k0 = k
    · subst h
      simp [bump]
    · simp only [bump, if_neg h, List.map_cons, ih]
      by_cases hk : k ∈ t.map Prod.fst
      · simp [hk, h, Ne.symm h]
      · simp [hk, h, Ne.symm h]

/-- Invariant of the `groupByYear` fold: its keys are without duplicates
and are exactly the accumulated year keys. -/
theorem groupFold_keys (now : ℚ) :
    ∀ (data : List Rec) (acc : List (String × (JsNum × JsNum))),
      (acc.map Prod.fst).Nodup →
      (((data.foldl (fun acc r =>
          bump acc (yearKey now r)
            (fun ya => (ya.1.add (getBudget r), ya.2.add (getActual r)))
            (JsNum.val 0, JsNum.val 0)) acc).map Prod.fst).Nodup
        ∧ ∀ k, k ∈ (data.foldl (fun acc r =>
            bump acc (yearKey now r)
              (fun ya => (ya.1.add (getBudget r), ya.2.add (getActual r)))
              (JsNum.val 0, JsNum.val 0)) acc).map Prod.fst ↔
            (k ∈ acc.map Prod.fst ∨ k ∈ data.map (yearKey now))) := by
  intro data
  induction data with
  | nil =>
    intro acc h
    exact ⟨h, fun k => by simp⟩
  | cons r t ih =>
    intro acc h
    have hkeys := bump_keys acc (yearKey now r)
      (fun ya => (ya.1.add (getBudget r), ya.2.add (getActual r)))
      (JsNum.val 0, JsNum.val 0)
    have hnd : ((bump acc (yearKey now r)
        (fun ya => (ya.1.add (getBudget r), ya.2.add (getActual r)))
        (JsNum.val 0, JsNum.val 0)).map Prod.fst).Nodup := by
      rw [hkeys]
      by_cases hm : yearKey now r ∈ acc.map Prod.fst
      · rw [if_pos hm]
        exact h
      · rw [if_neg hm]
        exact h.append (List.nodup_singleton _)
          (by simpa [List.disjoint_singleton] using hm)
    have hb : ∀ k, k ∈ (bump acc (yearKey now r)
        (fun ya => (ya.1.add (getBudget r), ya.2.add (getActual r)))
        (JsNum.val 0, JsNum.val 0)).map Prod.fst ↔
        (k ∈ acc.map Prod.fst ∨ k = yearKey now r) := by
      intro k
      rw [hkeys]
      by_cases hm : yearKey now r ∈ acc.map Prod.fst
      · rw [if_pos hm]
        constructor
        · exact Or.inl
        · rintro (hk | rfl)
          · exact hk
          · exact hm
      · rw [if_neg hm]
        simp
    obtain ⟨ihn, ihm⟩ := ih (bump acc (yearKey now r)
      (fun ya => (ya.1.add (getBudget r), ya.2.add (getActual r)))
      (JsNum.val 0, JsNum.val 0)) hnd
    refine ⟨by simpa only [List.foldl_cons] using ihn, ?_⟩
    intro k
    simp only [List.foldl_cons, List.map_cons, List.mem_cons]
    rw [ihm k, hb k]
    tauto

theorem groupByYear_keys (now : ℚ) (data : List Rec) :
    ((groupByYear now data).map Prod.fst).Nodup
    ∧ ∀ k, k ∈ (groupByYear now data).map Prod.fst ↔ k ∈ data.map (yearKey now) := by
  have h := groupFold_keys now data [] (by simp)
  unfold groupByYear
  exact ⟨h.1, fun k => by rw [h.2 k]; simp⟩

theorem strLe_trans : ∀ a b c : String,
    decide (a ≤ b) = true → decide (b ≤ c) = true → decide (a ≤ c) = true := by
  intro a b c h1 h2
  simp only [decide_eq_true_eq] at *
  exact le_trans h1 h2

theorem strLe_total : ∀ a b : String, (decide (a ≤ b) || decide (b ≤ a)) = true := by
  intro a b
  simp only [Bool.or_eq_true, decide_eq_true_eq]
  exact le_total a b

/-- C7: the year keys of the grouping are exactly the distinct years of
the record set and are processed in ascending order; with fewer than 2
distinct years the trend analysis returns the insufficient-data narrative
with no data payload; with 2 or more it labels the trend positive exactly
when strictly more than half of the consecutive pairs have a strictly
smaller absolute variance than their predecessor. -/
theorem claim7_main (now : ℚ) (data : List Rec) :
    (((groupByYear now data).map Prod.fst).Nodup
      ∧ ∀ k, k ∈ (groupByYear now data).map Prod.fst ↔ k ∈ data.map (yearKey now))
    ∧ (sortedYears (groupByYear now data)).Perm ((groupByYear now data).map Prod.fst)
    ∧ (sortedYears (groupByYear now data)).Pairwise (· ≤ ·)
    ∧ ((sortedYears (groupByYear now data)).length < 2 →
        analyzeTrends now data =
          { insight := Insight.trendInsufficient, data := none, chartType := none })
    ∧ (2 ≤ (sortedYears (groupByYear now data)).length →
        ∃ lines, analyzeTrends now data =
          { insight := Insight.trend ((sortedYears (groupByYear now data)).headD "")
              ((sortedYears (groupByYear now data)).getLastD "")
              (decide ((sortedYears (groupByYear now data)).length - 1
                < 2 * pairImprovements (trendSeries now data))) lines,
            data := some (.trendSeries (trendSeries now data)),
            chartType := some .line }) := by
  refine ⟨groupByYear_keys now data, List.mergeSort_perm _ _, ?_, ?_, ?_⟩
  · exact (List.sorted_mergeSort strLe_trans strLe_total _).imp
      (fun h => of_decide_eq_true h)
  · intro h
    simp only [analyzeTrends]
    rw [if_pos h]
  · intro h
    have hn : ¬(sortedYears (groupByYear now data)).length < 2 := not_lt.mpr h
    have hflag : decide
        ((((sortedYears (groupByYear now data)).length - 1 : ℕ) : ℚ) / 2
          < (improvingCount (trendSeries now data) : ℚ))
        = decide ((sortedYears (groupByYear now data)).length - 1
          < 2 * pairImprovements (trendSeries now data)) := by
      rw [improvingCount_eq]
      apply decide_eq_decide.mpr
      rw [div_lt_iff₀ (by norm_num : (0 : ℚ) < 2), mul_comm]
      exact_mod_cast Iff.rfl
    refine ⟨(trendSeries now data).map (fun t => (t.year, t.variance, bandOf t.variance)), ?_⟩
    simp only [analyzeTrends]
    rw [if_neg hn, hflag]

theorem claim7_witness :
    analyzeTrends 0 c7single =
      { insight := Insight.trendInsufficient, data := none, chartType := none } :=
  (claim7_main 0 c7single).2.2.2.1 (by with_unfolding_all decide)

end Arqam
